import Mathlib

/-!
Verification of the avia offer-aggregation bot against its specification.

The definitions below are a shallow embedding of the Python sources
`app/main.py`, `app/aviasales.py` and `app/bot_logic.py`:
JSON scalar values become `JVal`, raw provider records become `RawItem`,
and each relevant Python function is translated into a Lean function of
the same name.  Machine behaviour that matters (Python truthiness of
`or`, `str.isdigit`, negative list indexing, the in-loop `break` of the
dedup limit) is modelled explicitly.
-/

namespace Avia

/-- A JSON scalar as it occurs in provider payloads: a number or a string. -/
inductive JVal where
  | num (n : Int)
  | str (s : String)
deriving DecidableEq, Repr

/-- Python truthiness of a JSON scalar: `0` and `""` are falsy. -/
def JVal.falsy : JVal → Bool
  | .num n => n == 0
  | .str s => s == ""

/-- Python truthiness of `dict.get(...)`: `None` (absent) is falsy. -/
def jfalsy : Option JVal → Bool
  | none => true
  | some v => v.falsy

/-- Python `a or b` on optional JSON scalars. -/
def jor (a b : Option JVal) : Option JVal :=
  if jfalsy a then b else a

/-- Python `a or b` on optional strings (`None` and `""` are falsy). -/
def sor (a b : Option String) : Option String :=
  match a with
  | none => b
  | some s => if s == "" then b else some s

/-- Python `a or b or ""` on optional strings. -/
def resolveStr (a b : Option String) : String :=
  match sor a b with
  | none => ""
  | some s => s

/-- Python `a or ""` on an optional string. -/
def resolveStr1 (a : Option String) : String :=
  match a with
  | none => ""
  | some s => if s == "" then "" else s

/-- A raw offer record as returned by a provider, with the fields that
`merge_results` (main.py, lines 220-249) reads; an absent key is `none`. -/
structure RawItem where
  price : Option JVal := none
  value : Option JVal := none
  airline : Option String := none
  gate : Option String := none
  departure_at : Option String := none
  departure_at_iso : Option String := none
  flight_number : Option String := none
  link : Option String := none
  deeplink : Option String := none
deriving DecidableEq, Repr

/-- Python `str(price).isdigit()` for an ASCII decimal payload. -/
def isDigits (s : String) : Bool :=
  !s.data.isEmpty && s.data.all (fun c => c.isDigit)

/-- `int(s)` on a decimal digit string. -/
def digitsToNat (s : String) : Nat :=
  s.data.foldl (fun acc c => acc * 10 + (c.toNat - 48)) 0

/-- `int(price) if str(price).isdigit() else price` (main.py line 232):
a digit string becomes a number, a non-negative number round-trips
through `str`, everything else is kept as is. -/
def normPrice (p : Option JVal) : Option JVal :=
  match p with
  | some (.str s) => if isDigits s then some (.num (digitsToNat s)) else some (.str s)
  | _ => p

/-- A normalized offer, the dict built in `merge_results` (main.py 231-237). -/
structure NOffer where
  price : Option JVal
  airline : String
  link : String
  departure_at : String
  flight_number : String
deriving DecidableEq, Repr

/-- The alias resolution of `merge_results` (main.py 225-237). -/
def normalize (item : RawItem) : NOffer :=
  { price := normPrice (jor item.price item.value)
    airline := resolveStr item.airline item.gate
    link := resolveStr item.link item.deeplink
    departure_at := resolveStr item.departure_at item.departure_at_iso
    flight_number := resolveStr1 item.flight_number }

/-- The sort key of main.py line 238:
`x["price"] if isinstance(x["price"], int) else 10**12`. -/
def skey : Option JVal → Int
  | some (.num n) => n
  | some (.str _) => 10 ^ 12
  | none => 10 ^ 12

/-- Key-based comparison used to model Python's stable `list.sort(key=...)`. -/
def keyLE {α : Type} (key : α → Int) (a b : α) : Prop :=
  key a ≤ key b

instance {α : Type} (key : α → Int) : DecidableRel (keyLE key) :=
  fun a b => inferInstanceAs (Decidable (key a ≤ key b))

instance {α : Type} (key : α → Int) : IsTotal α (keyLE key) :=
  ⟨fun a b => Int.le_total (key a) (key b)⟩

instance {α : Type} (key : α → Int) : IsTrans α (keyLE key) :=
  ⟨fun _ _ _ h h' => le_trans h h'⟩

/-- Python's `list.sort(key=...)` is a stable ascending sort; insertion sort
is its extensional model. -/
def sortKey {α : Type} (key : α → Int) (l : List α) : List α :=
  l.insertionSort (keyLE key)

/-- The dedup key of main.py line 242: `(n.get("airline"), n.get("departure_at"))`. -/
def dkey (o : NOffer) : String × String :=
  (o.airline, o.departure_at)

/-- The dedup loop of main.py 239-248, with the in-loop truncation:
after appending, the loop breaks as soon as `len(unique) >= limit`. -/
def dedupLoop (limit : Nat) : List (String × String) → List NOffer → List NOffer → List NOffer
  | _, acc, [] => acc.reverse
  | seen, acc, n :: ns =>
    if dkey n ∈ seen then dedupLoop limit seen acc ns
    else if limit ≤ acc.length + 1 then (n :: acc).reverse
    else dedupLoop limit (dkey n :: seen) (n :: acc) ns

/-- `merge_results(*lists, limit=...)` (main.py 220-249): flatten the pools,
normalize, sort ascending by the price key, then deduplicate keeping the
first survivor per key, truncating at `limit`. -/
def merge_results (lists : List (List RawItem)) (limit : Nat) : List NOffer :=
  let pool := lists.flatten
  let normalized := pool.map normalize
  let sorted := sortKey (fun o => skey o.price) normalized
  dedupLoop limit [] [] sorted

/-- First-occurrence-per-key deduplication without a truncation limit
(the loop shape shared by main.py 239-246 and aviasales.py 105-109);
`dedupLoop` is reduced to `dedupBy dkey` plus a `take`. -/
def dedupBy {α : Type} (dk : α → String × String) :
    List (String × String) → List α → List α
  | _, [] => []
  | seen, n :: ns =>
    if dk n ∈ seen then dedupBy dk seen ns
    else n :: dedupBy dk (dk n :: seen) ns

/-- A merged offer re-read as a raw record: the dict produced by
`merge_results` has exactly the keys price, airline, link, departure_at,
flight_number, so the alias fields are absent on a second pass. -/
def NOffer.toRaw (o : NOffer) : RawItem :=
  { price := o.price, value := none, airline := some o.airline, gate := none,
    departure_at := some o.departure_at, departure_at_iso := none,
    flight_number := some o.flight_number, link := some o.link, deeplink := none }

/-- `merge_results(merge_results(X))`: the merged pool fed back in as the
single input pool. -/
def remerge (pool : List RawItem) (limit : Nat) : List NOffer :=
  merge_results [(merge_results [pool] limit).map NOffer.toRaw] limit

/-! ### Provider adapters (main.py 183-217)

The HTTP exchange is abstracted into an `HttpOutcome`; what the adapter
does with each outcome is translated from the source.  A Python
exception escaping the function is an `Except.error`. -/

/-- An offer dict built inside `fetch_cheapest` (aviasales.py 94-103). -/
structure FOffer where
  price : Option Int
  airline : String
  flight_number : String
  departure_at : String
  transfers : Int
  origin : String
  destination : String
  link : String
deriving DecidableEq, Repr

/-- The sort key of aviasales.py line 106: `z["price"] or 9e12`; a missing
or zero price is falsy and falls through to the sentinel. -/
def fkey : Option Int → Int
  | none => 9 * 10 ^ 12
  | some n => if n = 0 then 9 * 10 ^ 12 else n

/-- The dedup key of aviasales.py line 107: `(x["departure_at"], x["flight_number"])`. -/
def fdkey (x : FOffer) : String × String :=
  (x.departure_at, x.flight_number)

/-- The ranking tail of `fetch_cheapest` (aviasales.py 104-110): sort by the
price-or-sentinel key, keep the first offer seen per key, return the top 10. -/
def rank_cheapest (results : List FOffer) : List FOffer :=
  (dedupBy fdkey [] (sortKey (fun z => fkey z.price) results)).take 10

def PAGE_SIZE : Nat := 5

/-- `q.results[start:start + PAGE_SIZE]` with `start = q.page * PAGE_SIZE`
(main.py 275-276). -/
def pageChunk (results : List NOffer) (page : Nat) : List NOffer :=
  (results.drop (page * PAGE_SIZE)).take PAGE_SIZE

/-- `len(st.results) > start_idx + PAGE_SIZE` (main.py 404, 425). -/
def has_more (results : List NOffer) (page : Nat) : Bool :=
  decide (page * PAGE_SIZE + PAGE_SIZE < results.length)

/-- The shape of the message built by `build_results_text` (main.py 261-301):
an empty result set, an empty page past the data, or the page's offers. -/
inductive ResultsRender where
  | noResults
  | allShown
  | offers (chunk : List NOffer)
deriving DecidableEq, Repr

/-- The branch structure of `build_results_text` (main.py 271-279). -/
def build_results_render (results : List NOffer) (page : Nat) : ResultsRender :=
  if results = [] then .noResults
  else
    let chunk := pageChunk results page
    if chunk = [] then .allShown else .offers chunk

/-! ### Per-user session and its handlers (main.py 71-84, 435-524, 367-411) -/

/-- `QueryState` (main.py 71-82); dates are carried as ISO strings. -/
structure QueryState where
  origin : Option String := none
  origin_label : Option String := none
  destination : Option String := none
  destination_label : Option String := none
  depart_date : Option String := none
  return_date : Option String := none
  results : List NOffer := []
  page : Nat := 0
  selected_idx : Option Int := none
  adding_return : Bool := false
deriving DecidableEq, Repr

/-- Python list indexing `l[idx]`: non-negative indices from the front,
negative indices from the back, IndexError (`none`) otherwise. -/
def pyIndex (l : List NOffer) (idx : Int) : Option NOffer :=
  if 0 ≤ idx then l[idx.toNat]?
  else if 0 ≤ idx + l.length then l[(idx + l.length).toNat]?
  else none

/-- What `buy_ticket` (main.py 435-487) sends back to the user. -/
inductive BuyOutcome where
  | notFound
  | prompt (choice : NOffer)
  | indexError
deriving DecidableEq, Repr

/-- `buy_ticket` (main.py 435-487): the guard rejects a missing session,
empty results, or `idx >= len(st.results)`; otherwise `st.selected_idx`
is assigned before `st.results[idx]` is read. -/
def buy_ticket (st : Option QueryState) (idx : Int) : Option QueryState × BuyOutcome :=
  match st with
  | none => (none, .notFound)
  | some q =>
    if q.results = [] ∨ (q.results.length : Int) ≤ idx then (some q, .notFound)
    else
      let q' := { q with selected_idx := some idx }
      match pyIndex q.results idx with
      | some choice => (some q', .prompt choice)
      | none => (some q', .indexError)

/-- The lead record assembled by `got_contact` (main.py 498-516). -/
structure Lead where
  origin : Option String
  destination : Option String
  depart_date : Option String
  idx : Int
  price : Option JVal
  airline : String
  departure_at : String
  phone : String
  username : Option String
  fullname : String
deriving DecidableEq, Repr

/-- What `got_contact` does besides (not) touching the session. -/
inductive ContactOutcome where
  | genericThanks
  | leadSent (lead : Lead)
  | leadFailed (lead : Lead)
  | indexError
deriving DecidableEq, Repr

/-- `got_contact` (main.py 489-524): guard, lead assembly, send to the
managers chat when configured.  `sendOk` stands for the external send
succeeding.  The handler never writes `user_state`. -/
def got_contact (managers : Int) (sendOk : Bool) (st : Option QueryState)
    (phone : String) (username : Option String) (fullname : String) :
    Option QueryState × ContactOutcome :=
  match st with
  | none => (none, .genericThanks)
  | some q =>
    match q.selected_idx with
    | none => (some q, .genericThanks)
    | some i =>
      if q.results = [] then (some q, .genericThanks)
      else
        match pyIndex q.results i with
        | none => (some q, .indexError)
        | some choice =>
          let lead : Lead :=
            { origin := q.origin, destination := q.destination,
              depart_date := q.depart_date, idx := i, price := choice.price,
              airline := choice.airline, departure_at := choice.departure_at,
              phone := phone, username := username, fullname := fullname }
          if managers ≠ 0 then
            if sendOk then (some q, .leadSent lead) else (some q, .leadFailed lead)
          else (some q, .genericThanks)

/-- One outbound provider query issued by a handler. -/
structure FetchCall where
  origin : Option String
  destination : Option String
  depart : String
deriving DecidableEq, Repr

/-- `cal_set` (main.py 367-411), date-chosen branch: no origin/destination
guard exists; the date and page are stored, both provider fetches are
issued, and the merged results are stored.  `tp_res`/`avs_res` are the
lists the two adapter calls resolved to. -/
def cal_set (st : QueryState) (chosen : String) (tp_res avs_res : List RawItem) :
    QueryState × List FetchCall :=
  if st.adding_return then
    ({ st with return_date := some chosen, adding_return := false }, [])
  else
    let st1 := { st with depart_date := some chosen, page := 0 }
    let calls : List FetchCall :=
      [⟨st.origin, st.destination, chosen⟩, ⟨st.origin, st.destination, chosen⟩]
    ({ st1 with results := merge_results [tp_res, avs_res] 40 }, calls)

/-! ### bot_logic.py: `run_search` (lines 137-179) -/

/-- Python falsiness of an optional string field. -/
def strFalsy : Option String → Bool
  | none => true
  | some s => s == ""

/-- The slice of `USER_STATE` that `run_search` reads. -/
structure BLState where
  tag : Option String := none
  origin : Option String := none
  dest_group : Option String := none
deriving DecidableEq, Repr

def RU_DESTS : List (String × List String) :=
  [("Moscow-all", ["SVO", "DME", "VKO"]), ("Saint-Petersburg", ["LED"])]

def UAE_DESTS : List (String × List String) :=
  [("Dubai", ["DXB", "DWC"]), ("Sharjah", ["SHJ"])]

def TR_DESTS : List (String × List String) :=
  [("Istanbul", ["IST", "SAW"]), ("Ankara", ["ESB"])]

def destGroupsFor (tag : String) : List (String × List String) :=
  if tag = "ru" then RU_DESTS else if tag = "uae" then UAE_DESTS else TR_DESTS

/-- What `run_search` replies with. -/
inductive RunSearchOutcome where
  | missingData
  | badGroup
  | nothingFound
  | results (offers : List FOffer)
deriving DecidableEq, Repr

/-- `run_search` (bot_logic.py 137-179): guard on missing origin/tag/group
before anything else; then the group lookup; then one `fetch_cheapest`
per destination code (`env` resolves each call); then sort by the
price-or-sentinel key.  The function never writes the session. -/
def run_search (st : BLState) (dep : String) (env : String → List FOffer) :
    BLState × RunSearchOutcome × List FetchCall :=
  if strFalsy st.origin || strFalsy st.tag || strFalsy st.dest_group then
    (st, .missingData, [])
  else
    match (destGroupsFor (st.tag.getD "")).find? (fun g => g.1 = st.dest_group.getD "") with
    | none => (st, .badGroup, [])
    | some grp =>
      let calls := grp.2.map (fun dest => FetchCall.mk st.origin (some dest) dep)
      let offers :=
        (grp.2.map (fun dest => (env dest).map (fun o => { o with destination := dest }))).flatten
      if offers = [] then (st, .nothingFound, calls)
      else (st, .results (sortKey (fun z => fkey z.price) offers), calls)

/-! ### Affiliate link builder (main.py 447-460) -/

/-- One piece of `REF_LINK_TEMPLATE`: literal text or a `{...}` placeholder;
an unknown placeholder makes `str.format` raise. -/
inductive Tok where
  | lit (s : String)
  | origin
  | destination
  | date
  | subid
  | unknown (name : String)
deriving DecidableEq, Repr

/-- `REF_LINK_TEMPLATE.format(origin=..., destination=..., date=..., subid=...)`
with the surrounding `try/except` returning `None` on a format error. -/
def fmtRef (tmpl : List Tok) (origin destination dateStr subid : String) : Option String :=
  if tmpl.any (fun t => match t with | .unknown _ => true | _ => false) then none
  else
    some ((tmpl.map (fun t =>
      match t with
      | .lit s => s
      | .origin => origin
      | .destination => destination
      | .date => dateStr
      | .subid => subid
      | .unknown _ => "")).foldl (fun a b => a ++ b) "")

/-- Python `str(x)` on an optional string. -/
def pyStrOpt : Option String → String
  | none => "None"
  | some s => s

/-- `build_ref_link` (main.py 447-460): prefer the offer's own link; else
substitute into the template with `(st.depart_date or date.today())`. -/
def build_ref_link (choice : NOffer) (st : QueryState) (today : String)
    (tmpl : List Tok) (subid : String) : Option String :=
  if choice.link ≠ "" then some choice.link
  else if tmpl ≠ [] then
    fmtRef tmpl (pyStrOpt st.origin) (pyStrOpt st.destination)
      (st.depart_date.getD today) subid
  else none

/-- `presentFalsy p` holds when a price is present but Python-falsy
(`0` or `""`), the values on which the alias chain `price or value`
discards a present price. -/
def presentFalsy : Option JVal → Bool
  | some v => v.falsy
  | none => false

/-! ## Lemmas about the stable sort -/

section SortLemmas

variable {α : Type} (key : α → Int)

theorem sortKey_perm (l : List α) : List.Perm (sortKey key l) l :=
  List.perm_insertionSort _ l

theorem mem_sortKey {l : List α} {x : α} : x ∈ sortKey key l ↔ x ∈ l :=
  (sortKey_perm key l).mem_iff

theorem sortKey_sorted (l : List α) :
    List.Pairwise (fun a b => key a ≤ key b) (sortKey key l) :=
  List.sorted_insertionSort (keyLE key) l

theorem sortKey_of_sorted {l : List α}
    (h : List.Pairwise (fun a b => key a ≤ key b) l) : sortKey key l = l :=
  List.Sorted.insertionSort_eq h

/-- Stability of the insertion step, expressed through `filter`: the
equal-key elements keep their relative order. -/
theorem filter_orderedInsert (c : Int) (x : α) (l : List α) :
    (l.orderedInsert (keyLE key) x).filter (fun a => key a == c) =
      if key x = c then x :: l.filter (fun a => key a == c)
      else l.filter (fun a => key a == c) := by
  induction l with
  | nil =>
    by_cases h : key x = c
    · rw [if_pos h]
      show List.filter _ [x] = [x]
      rw [List.filter_cons_of_pos (by simpa using h), List.filter_nil]
    · rw [if_neg h]
      show List.filter _ [x] = []
      rw [List.filter_cons_of_neg (by simpa using h), List.filter_nil]
  | cons y ys ih =>
    show List.filter _ (if keyLE key x y then x :: y :: ys
      else y :: ys.orderedInsert (keyLE key) x) = _
    by_cases hxy : keyLE key x y
    · rw [if_pos hxy]
      by_cases h : key x = c
      · rw [if_pos h, List.filter_cons_of_pos (by simpa using h)]
      · rw [if_neg h, List.filter_cons_of_neg (by simpa using h)]
    · rw [if_neg hxy]
      have hlt : key y < key x := lt_of_not_le hxy
      by_cases hy : key y = c
      · have h : ¬ key x = c := by omega
        rw [if_neg h, List.filter_cons_of_pos (by simpa using hy),
          List.filter_cons_of_pos (by simpa using hy), ih, if_neg h]
      · rw [List.filter_cons_of_neg (by simpa using hy), ih,
          List.filter_cons_of_neg (by simpa using hy)]

/-- Stability of the modelled `list.sort(key=...)`: filtering the sorted
list to one key value gives the same list as filtering the input. -/
theorem sortKey_filter (c : Int) (l : List α) :
    (sortKey key l).filter (fun a => key a == c) =
      l.filter (fun a => key a == c) := by
  induction l with
  | nil => rfl
  | cons x xs ih =>
    show ((xs.insertionSort (keyLE key)).orderedInsert (keyLE key) x).filter _ = _
    rw [filter_orderedInsert]
    have ih' : ((xs.insertionSort (keyLE key)).filter (fun a => key a == c)) =
        xs.filter (fun a => key a == c) := ih
    by_cases h : key x = c
    · rw [if_pos h, ih', List.filter_cons_of_pos (by simpa using h)]
    · rw [if_neg h, ih', List.filter_cons_of_neg (by simpa using h)]

end SortLemmas

/-! ## Lemmas about first-occurrence deduplication -/

section DedupLemmas

variable {α : Type} (dk : α → String × String)

theorem dedupBy_sublist (seen : List (String × String)) (l : List α) :
    List.Sublist (dedupBy dk seen l) l := by
  induction l generalizing seen with
  | nil => simp [dedupBy]
  | cons n ns ih =>
    rw [dedupBy]
    by_cases h : dk n ∈ seen
    · rw [if_pos h]
      exact (ih seen).trans (List.sublist_cons_self n ns)
    · rw [if_neg h]
      exact (ih (dk n :: seen)).cons₂ n

theorem mem_dedupBy_not_seen {seen : List (String × String)} {l : List α} {o : α}
    (h : o ∈ dedupBy dk seen l) : dk o ∉ seen := by
  induction l generalizing seen with
  | nil => simp [dedupBy] at h
  | cons n ns ih =>
    rw [dedupBy] at h
    by_cases hn : dk n ∈ seen
    · rw [if_pos hn] at h
      exact ih h
    · rw [if_neg hn] at h
      rcases List.mem_cons.mp h with rfl | h
      · exact hn
      · have := ih h
        intro hc
        exact this (List.mem_cons_of_mem _ hc)

theorem dedupBy_countP_eq_zero {seen : List (String × String)} {l : List α}
    {k : String × String} (hk : k ∈ seen) :
    (dedupBy dk seen l).countP (fun o => dk o == k) = 0 := by
  rw [List.countP_eq_zero]
  intro o ho
  have := mem_dedupBy_not_seen dk ho
  simp only [beq_iff_eq]
  intro hc
  exact this (hc ▸ hk)

/-- Each key occurring in the pool survives deduplication exactly once. -/
theorem dedupBy_countP {seen : List (String × String)} {l : List α}
    {k : String × String} (hk : k ∉ seen) (hmem : k ∈ l.map dk) :
    (dedupBy dk seen l).countP (fun o => dk o == k) = 1 := by
  induction l generalizing seen with
  | nil => simp at hmem
  | cons n ns ih =>
    rw [dedupBy]
    by_cases hn : dk n ∈ seen
    · rw [if_pos hn]
      rcases List.mem_cons.mp hmem with h | h
      · exact absurd (h ▸ hn) hk
      · exact ih hk h
    · rw [if_neg hn]
      by_cases hkn : dk n = k
      · rw [List.countP_cons_of_pos _ _ (by simpa using hkn)]
        rw [dedupBy_countP_eq_zero dk (by simp [hkn])]
      · rw [List.countP_cons_of_neg _ _ (by simpa using hkn)]
        rcases List.mem_cons.mp hmem with h | h
        · exact absurd h.symm hkn
        · exact ih (by simp [hk, Ne.symm hkn]) h

theorem dedupBy_keys_nodup (seen : List (String × String)) (l : List α) :
    ((dedupBy dk seen l).map dk).Nodup := by
  induction l generalizing seen with
  | nil => simp [dedupBy]
  | cons n ns ih =>
    rw [dedupBy]
    by_cases hn : dk n ∈ seen
    · rw [if_pos hn]; exact ih seen
    · rw [if_neg hn]
      refine List.nodup_cons.mpr ⟨?_, ih (dk n :: seen)⟩
      intro hc
      rcases List.mem_map.mp hc with ⟨o, ho, hko⟩
      exact mem_dedupBy_not_seen dk ho (by simp [hko])

/-- A list whose keys are already distinct (and disjoint from `seen`)
passes through deduplication unchanged. -/
theorem dedupBy_eq_self {seen : List (String × String)} {l : List α}
    (hn : (l.map dk).Nodup) (hd : ∀ o ∈ l, dk o ∉ seen) :
    dedupBy dk seen l = l := by
  induction l generalizing seen with
  | nil => rfl
  | cons n ns ih =>
    rw [dedupBy, if_neg (hd n (List.mem_cons_self n ns))]
    congr 1
    rw [List.map_cons, List.nodup_cons] at hn
    obtain ⟨hnn, hns⟩ := hn
    refine ih hns ?_
    intro o ho
    simp only [List.mem_cons]
    push_neg
    refine ⟨?_, hd o (List.mem_cons_of_mem _ ho)⟩
    intro hc
    exact hnn (List.mem_map.mpr ⟨o, ho, hc⟩)

/-- In a key-sorted list, the dedup survivor of a key class has the
minimal sort key of its class. -/
theorem dedupBy_min_key (key : α → Int) {l : List α}
    (hs : List.Pairwise (fun a b => key a ≤ key b) l)
    {seen : List (String × String)} {o : α}
    (ho : o ∈ dedupBy dk seen l) {x : α} (hx : x ∈ l) (hxk : dk x = dk o) :
    key o ≤ key x := by
  induction l generalizing seen with
  | nil => simp [dedupBy] at ho
  | cons n ns ih =>
    rcases List.pairwise_cons.mp hs with ⟨hhead, htail⟩
    rw [dedupBy] at ho
    by_cases hn : dk n ∈ seen
    · rw [if_pos hn] at ho
      rcases List.mem_cons.mp hx with rfl | hx
      · exact absurd (hxk ▸ hn) (mem_dedupBy_not_seen dk ho)
      · exact ih htail ho hx
    · rw [if_neg hn] at ho
      rcases List.mem_cons.mp ho with rfl | ho
      · rcases List.mem_cons.mp hx with rfl | hx
        · exact le_refl _
        · exact hhead x hx
      · have hno : dk o ∉ dk n :: seen := mem_dedupBy_not_seen dk ho
        rcases List.mem_cons.mp hx with rfl | hx
        · exact absurd (hxk ▸ List.mem_cons_self _ _) (hxk ▸ hno)
        · exact ih htail ho hx

end DedupLemmas

/-! ## Reducing `dedupLoop` (the loop with the in-loop break) to
`dedupBy` plus a truncation -/

theorem dedupLoop_eq_dedupBy (limit : Nat) (seen : List (String × String))
    (acc : List NOffer) (l : List NOffer) (h : acc.length < limit) :
    dedupLoop limit seen acc l =
      acc.reverse ++ (dedupBy dkey seen l).take (limit - acc.length) := by
  induction l generalizing seen acc with
  | nil => simp [dedupLoop, dedupBy]
  | cons n ns ih =>
    rw [dedupLoop, dedupBy]
    by_cases hk : dkey n ∈ seen
    · rw [if_pos hk, if_pos hk, ih seen acc h]
    · rw [if_neg hk, if_neg hk]
      by_cases hl : limit ≤ acc.length + 1
      · have hone : limit - acc.length = 1 := by omega
        rw [if_pos hl, hone]
        simp
      · have hlt : (n :: acc).length < limit := by simp; omega
        rw [if_neg hl, ih (dkey n :: seen) (n :: acc) hlt]
        have hsucc : limit - acc.length = (limit - (n :: acc).length) + 1 := by
          simp; omega
        rw [hsucc, List.take_succ_cons]
        simp

/-- `merge_results` in closed form, for a positive limit. -/
theorem merge_results_eq (lists : List (List RawItem)) (limit : Nat) (h : 1 ≤ limit) :
    merge_results lists limit =
      (dedupBy dkey []
        (sortKey (fun o => skey o.price) (lists.flatten.map normalize))).take limit := by
  unfold merge_results
  rw [dedupLoop_eq_dedupBy limit [] [] _ (by simpa using h)]
  simp

/-- Whatever `dedupLoop` returns is a sublist of what went in. -/
theorem dedupLoop_sublist (limit : Nat) (seen : List (String × String))
    (acc : List NOffer) (l : List NOffer) :
    List.Sublist (dedupLoop limit seen acc l) (acc.reverse ++ l) := by
  induction l generalizing seen acc with
  | nil => simp [dedupLoop]
  | cons n ns ih =>
    rw [dedupLoop]
    by_cases hk : dkey n ∈ seen
    · rw [if_pos hk]
      exact (ih seen acc).trans
        (List.Sublist.append_left (List.sublist_cons_self n ns) acc.reverse)
    · rw [if_neg hk]
      by_cases hl : limit ≤ acc.length + 1
      · rw [if_pos hl]
        simp only [List.reverse_cons]
        exact List.Sublist.append_left
          ((List.nil_sublist ns).cons₂ n) acc.reverse
      · rw [if_neg hl]
        have := ih (dkey n :: seen) (n :: acc)
        simpa [List.append_assoc] using this

/-! ## Facts about merged offers used by several claims -/

theorem normPrice_idem (p : Option JVal) : normPrice (normPrice p) = normPrice p := by
  cases p with
  | none => rfl
  | some v =>
    cases v with
    | num n => rfl
    | str s =>
      by_cases h : isDigits s
      · simp [normPrice, h]
      · simp [normPrice, h]

theorem resolveStr_some_none (s : String) : resolveStr (some s) none = s := by
  by_cases h : s == ""
  · have hs : s = "" := eq_of_beq h
    subst hs
    rfl
  · show (match sor (some s) none with | none => "" | some t => t) = s
    rw [show sor (some s) none = some s from by simp [sor, h]]

theorem resolveStr1_some (s : String) : resolveStr1 (some s) = s := by
  by_cases h : s == ""
  · have hs : s = "" := eq_of_beq h
    subst hs
    rfl
  · show (if s == "" then "" else s) = s
    rw [if_neg h]

/-- Re-reading a merged offer as a raw record and normalizing it again is
the identity, as long as its price is not a present falsy value. -/
theorem normalize_toRaw (o : NOffer) (hN : normPrice o.price = o.price)
    (hF : presentFalsy o.price = false) : normalize o.toRaw = o := by
  obtain ⟨p, a, l, d, f⟩ := o
  simp only [normalize, NOffer.toRaw]
  congr 1
  · cases p with
    | none => rfl
    | some v =>
      have hv : v.falsy = false := by simpa [presentFalsy] using hF
      rw [show jor (some v) none = some v from by simp [jor, jfalsy, hv]]
      exact hN
  · exact resolveStr_some_none a
  · exact resolveStr_some_none l
  · exact resolveStr_some_none d
  · exact resolveStr1_some f

theorem mem_merge_mem_normalized {lists : List (List RawItem)} {limit : Nat}
    {o : NOffer} (h : o ∈ merge_results lists limit) :
    o ∈ lists.flatten.map normalize := by
  unfold merge_results at h
  have h2 := (dedupLoop_sublist limit [] [] _).subset h
  simp only [List.reverse_nil, List.nil_append] at h2
  exact (mem_sortKey _).mp h2

theorem mem_merge_normPrice {lists : List (List RawItem)} {limit : Nat}
    {o : NOffer} (h : o ∈ merge_results lists limit) :
    normPrice o.price = o.price := by
  rcases List.mem_map.mp (mem_merge_mem_normalized h) with ⟨item, _, rfl⟩
  exact normPrice_idem _

/-- The merged list is ascending in the sort key of main.py line 238. -/
theorem merge_sorted (lists : List (List RawItem)) (limit : Nat) :
    List.Pairwise (fun a b => skey a.price ≤ skey b.price)
      (merge_results lists limit) := by
  have hs := sortKey_sorted (fun o : NOffer => skey o.price) (lists.flatten.map normalize)
  have hsub := dedupLoop_sublist limit [] []
    (sortKey (fun o : NOffer => skey o.price) (lists.flatten.map normalize))
  simp only [List.reverse_nil, List.nil_append] at hsub
  exact List.Pairwise.sublist hsub hs

theorem merge_keys_nodup (lists : List (List RawItem)) {limit : Nat}
    (h : 1 ≤ limit) : ((merge_results lists limit).map dkey).Nodup := by
  rw [merge_results_eq _ _ h]
  exact List.Nodup.sublist ((List.take_sublist _ _).map dkey)
    (dedupBy_keys_nodup dkey [] _)

theorem merge_length_le (lists : List (List RawItem)) {limit : Nat}
    (h : 1 ≤ limit) : (merge_results lists limit).length ≤ limit := by
  rw [merge_results_eq _ _ h]
  exact List.length_take_le _ _

/-! ## Claim C1: what deduplication keeps.

The spec says first-seen-wins in pool order.  In the code the pool is
sorted by price BEFORE the dedup loop runs (main.py line 238 precedes
lines 239-248), so the survivor of a key class is the cheapest offer of
the class, not the first-seen one. -/

/-- Pool offer that comes first: airline X, same departure, price 120. -/
def itemX120 : RawItem :=
  { price := some (.num 120), airline := some "X",
    departure_at := some "2025-11-05T08:00" }

/-- Pool offer that comes second: same key, price 100. -/
def itemX100 : RawItem :=
  { price := some (.num 100), airline := some "X",
    departure_at := some "2025-11-05T08:00" }

/-- C1, counterexample: a pool with two offers of key
(airline "X", "2025-11-05T08:00"), prices 120 then 100 in pool order.
The merged output keeps the price-100 offer, not the first-seen
price-120 one, refuting first-seen-wins. -/
theorem C1_counterexample :
    merge_results [[itemX120, itemX100]] 40 =
      [{ price := some (.num 100), airline := "X", link := "",
         departure_at := "2025-11-05T08:00", flight_number := "" }] ∧
    (normalize itemX120).price = some (.num 120) := by
  constructor
  · decide
  · decide

/-- C1 (amended): for every pool and key, when the distinct keys fit the
limit, the merged output contains exactly one offer per key occurring in
the pool, and that offer's sort key is minimal among all pool offers
sharing the key (the cheapest wins, not the first-seen). -/
theorem C1_dedup_keeps_cheapest (pool : List RawItem) (limit : Nat)
    (k : String × String) (h1 : 1 ≤ limit)
    (hk : k ∈ (pool.map normalize).map dkey)
    (hlim : (dedupBy dkey []
      (sortKey (fun o => skey o.price) (pool.map normalize))).length ≤ limit) :
    (merge_results [pool] limit).countP (fun o => dkey o == k) = 1 ∧
    ∀ o ∈ merge_results [pool] limit, dkey o = k →
      ∀ x ∈ pool.map normalize, dkey x = k → skey o.price ≤ skey x.price := by
  have hflat : (([pool] : List (List RawItem)).flatten) = pool := by simp
  have heq : merge_results [pool] limit =
      dedupBy dkey [] (sortKey (fun o => skey o.price) (pool.map normalize)) := by
    rw [merge_results_eq _ _ h1, hflat, List.take_of_length_le hlim]
  constructor
  · rw [heq]
    refine dedupBy_countP dkey (by simp) ?_
    have hperm := (sortKey_perm (fun o : NOffer => skey o.price)
      (pool.map normalize)).map dkey
    exact hperm.mem_iff.mpr hk
  · intro o ho hok x hx hxk
    rw [heq] at ho
    exact dedupBy_min_key dkey (fun o => skey o.price)
      (sortKey_sorted _ _) ho ((mem_sortKey _).mpr hx) (by rw [hxk, hok])

/-- C1, witness: the amended statement applied to the concrete two-offer
pool of the counterexample. -/
theorem C1_witness :
    (merge_results [[itemX120, itemX100]] 40).countP
      (fun o => dkey o == ("X", "2025-11-05T08:00")) = 1 :=
  (C1_dedup_keeps_cheapest [itemX120, itemX100] 40 ("X", "2025-11-05T08:00")
    (by decide) (by decide) (by decide)).1

/-! ## Claim C2: ranking order.

An absent price sorts with the finite sentinel `10**12`, not an actual
infinity: a present price of `10**12` (or more) ties with — and, arriving
earlier in the pool, sorts before — an absent one.  The claim's
"absent strictly after every present price" therefore fails at the
sentinel boundary. -/

/-- Pool offer with an absent price, first in pool order. -/
def itemAbsent : RawItem :=
  { airline := some "A", departure_at := some "t1" }

/-- Pool offer with the present price `10**12`, second in pool order. -/
def itemBig : RawItem :=
  { price := some (.num (10 ^ 12)), airline := some "B",
    departure_at := some "t2" }

/-- C2, counterexample: an absent-price offer appears BEFORE an offer with
the present price `10**12`, because both share the sort key `10**12` and
the stable sort keeps pool order. -/
theorem C2_counterexample :
    merge_results [[itemAbsent, itemBig]] 40 =
      [{ price := none, airline := "A", link := "", departure_at := "t1",
         flight_number := "" },
       { price := some (.num (10 ^ 12)), airline := "B", link := "",
         departure_at := "t2", flight_number := "" }] := by
  decide

/-- C2 (amended): the merged output is ascending in the sort key
(present integer price, else the sentinel `10**12`); consequently an
absent-price offer precedes a present-price one only when that price is
at least `10**12`; and the modelled sort is stable: filtering the sorted
pool to any one key value returns those offers in pool order. -/
theorem C2_ranked_order (lists : List (List RawItem)) (limit : Nat) :
    List.Pairwise (fun a b => skey a.price ≤ skey b.price)
      (merge_results lists limit) ∧
    List.Pairwise (fun a b => a.price = none → ∀ n : Int,
      b.price = some (.num n) → (10 : Int) ^ 12 ≤ n)
      (merge_results lists limit) ∧
    ∀ c : Int,
      (sortKey (fun o => skey o.price) (lists.flatten.map normalize)).filter
          (fun o => skey o.price == c) =
        (lists.flatten.map normalize).filter (fun o => skey o.price == c) := by
  refine ⟨merge_sorted lists limit, ?_, fun c => sortKey_filter _ c _⟩
  refine (merge_sorted lists limit).imp ?_
  intro a b hab hna n hbn
  rw [hna] at hab
  rw [hbn] at hab
  simpa [skey] using hab

/-! ## Claim C4: idempotence of the merge.

`merge_results` emits plain price values; feeding a merged offer back in
re-runs the alias chain `item.get("price") or item.get("value")`, and a
present falsy price (`0`, from a pool item whose `value` was `0` or `"0"`)
is discarded to absent the second time.  Idempotence therefore fails
exactly at present falsy prices and holds everywhere else. -/

/-- Pool item whose price comes from `value = "0"`: the first merge gives
it the present price `0`, the second merge drops that to absent. -/
def itemValueZero : RawItem :=
  { value := some (.str "0"), airline := some "Z", departure_at := some "t" }

/-- C4, counterexample: `merge(merge(X)) ≠ merge(X)` for the singleton pool
whose offer merges to price `0`. -/
theorem C4_counterexample :
    merge_results [[itemValueZero]] 40 =
      [{ price := some (.num 0), airline := "Z", link := "",
         departure_at := "t", flight_number := "" }] ∧
    remerge [itemValueZero] 40 =
      [{ price := none, airline := "Z", link := "",
         departure_at := "t", flight_number := "" }] ∧
    remerge [itemValueZero] 40 ≠ merge_results [[itemValueZero]] 40 := by
  refine ⟨by decide, by decide, by decide⟩

/-- C4 (amended): the merge is a pure function of its input, and it is
idempotent on every pool whose merged offers all avoid a present falsy
price (in particular whenever every price is a positive number or
absent): `merge(merge(X)) = merge(X)`. -/
theorem C4_merge_idempotent (pool : List RawItem) (limit : Nat)
    (h1 : 1 ≤ limit)
    (hp : ∀ o ∈ merge_results [pool] limit, presentFalsy o.price = false) :
    remerge pool limit = merge_results [pool] limit := by
  unfold remerge
  have hroundtrip : ((merge_results [pool] limit).map NOffer.toRaw).map normalize =
      merge_results [pool] limit := by
    rw [List.map_map]
    have hcg : ∀ o ∈ merge_results [pool] limit,
        (normalize ∘ NOffer.toRaw) o = id o := by
      intro o ho
      simp only [Function.comp, id]
      exact normalize_toRaw o (mem_merge_normPrice ho) (hp o ho)
    rw [List.map_congr_left hcg, List.map_id]
  have hsorted : List.Pairwise (fun a b => skey a.price ≤ skey b.price)
      (merge_results [pool] limit) := merge_sorted _ _
  have hnodup : ((merge_results [pool] limit).map dkey).Nodup :=
    merge_keys_nodup _ h1
  have hlen : (merge_results [pool] limit).length ≤ limit :=
    merge_length_le _ h1
  rw [merge_results_eq _ _ h1]
  simp only [List.flatten, List.append_nil]
  rw [hroundtrip, sortKey_of_sorted _ hsorted,
    dedupBy_eq_self dkey hnodup (by intro o _; simp),
    List.take_of_length_le hlen]

/-- C4, witness: the amended idempotence applied to a concrete pool with a
positive price. -/
theorem C4_witness : remerge [itemX100] 40 = merge_results [[itemX100]] 40 :=
  C4_merge_idempotent [itemX100] 40 (by decide) (by decide)

/-! ## Claim C3: what escapes the adapter boundary.

`fetch_aviasales` wraps its whole body in `try/except Exception`, but
`fetch_travelpayouts` and `fetch_cheapest` wrap nothing: only the
missing token and a non-200 status collapse to nothing there; a network
failure, a timeout, a body that fails to decode — and, in
`fetch_cheapest`, an item whose departure time is missing or
unparseable — raise out of the coroutine. -/

/-- C5: the rendered page is exactly the window
`[page*PAGE_SIZE, (page+1)*PAGE_SIZE)` clipped to the results;
`has_more` holds iff the window's end is strictly inside the results; a
page past the data renders the distinct all-shown message with
`has_more = false`; an empty result set renders the distinct no-results
message. -/
theorem C5_pagination (results : List NOffer) (page : Nat) :
    (∀ i : Nat, (pageChunk results page)[i]? =
      if i < PAGE_SIZE then results[page * PAGE_SIZE + i]? else none) ∧
    (has_more results page = true ↔
      page * PAGE_SIZE + PAGE_SIZE < results.length) ∧
    (results ≠ [] → results.length ≤ page * PAGE_SIZE →
      build_results_render results page = .allShown ∧
      has_more results page = false) ∧
    (results = [] → build_results_render results page = .noResults) ∧
    ResultsRender.allShown ≠ ResultsRender.noResults := by
  refine ⟨?_, ?_, ?_, ?_, by simp⟩
  · intro i
    unfold pageChunk
    rw [List.getElem?_take]
    by_cases h : i < PAGE_SIZE
    · rw [if_pos h, if_pos h, List.getElem?_drop]
    · rw [if_neg h, if_neg h]
  · simp [has_more]
  · intro hne hlen
    have hchunk : pageChunk results page = [] := by
      unfold pageChunk
      rw [List.drop_eq_nil_of_le hlen]
      rfl
    constructor
    · show (if results = [] then ResultsRender.noResults
        else if pageChunk results page = [] then ResultsRender.allShown
        else ResultsRender.offers (pageChunk results page)) = ResultsRender.allShown
      rw [if_neg hne, if_pos hchunk]
    · have hps : PAGE_SIZE = 5 := rfl
      simp only [has_more, decide_eq_false_iff_not]
      rw [hps] at hlen ⊢
      omega
  · intro he
    unfold build_results_render
    rw [if_pos he]

/-! ## Claim C6: contact capture.

`got_contact` (main.py 489-524) assembles and sends the lead record, but
it never writes `user_state`: the session keeps its results and selected
index instead of returning to the Idle (freshly reset) state. -/

theorem pyIndex_nil (i : Int) : pyIndex [] i = none := by
  unfold pyIndex
  split
  · exact List.getElem?_nil
  · split
    · exact List.getElem?_nil
    · rfl

/-- The one offer of the concrete awaiting-contact session. -/
def offerA1 : NOffer :=
  ⟨some (.num 100), "A1", "", "2025-11-05T08:00", "f"⟩

/-- A session in the awaiting-contact shape: results present and an
offer index selected. -/
def qAwaiting : QueryState :=
  { origin := some "TAS", destination := some "IST",
    depart_date := some "2025-11-05", results := [offerA1],
    selected_idx := some 0 }

/-- C6, counterexample: from the awaiting-contact session, the
contact-provided event emits the lead but leaves the session exactly as
it was — selected index and results still set — instead of returning it
to the Idle (reset) state. -/
theorem C6_counterexample :
    got_contact 777 true (some qAwaiting) "+998901112233" (some "user") "Name" =
      (some qAwaiting,
       .leadSent
         { origin := some "TAS", destination := some "IST",
           depart_date := some "2025-11-05", idx := 0, price := some (.num 100),
           airline := "A1", departure_at := "2025-11-05T08:00",
           phone := "+998901112233", username := some "user",
           fullname := "Name" }) ∧
    qAwaiting ≠ {} ∧ qAwaiting.selected_idx = some 0 := by
  refine ⟨by decide, by decide, by decide⟩

/-- C6 (amended): for every session with an offer selected and resolvable
against its results, and the managers chat configured, contact-provided
emits the lead record built from the session's route, date, selected
offer summary, phone and user identity — and returns the session
UNCHANGED rather than resetting it to Idle. -/
theorem C6_contact_emits_lead_no_reset (managers : Int) (q : QueryState)
    (phone : String) (username : Option String) (fullname : String)
    (i : Int) (choice : NOffer)
    (hsel : q.selected_idx = some i) (hch : pyIndex q.results i = some choice)
    (hm : managers ≠ 0) :
    got_contact managers true (some q) phone username fullname =
      (some q, .leadSent
        { origin := q.origin, destination := q.destination,
          depart_date := q.depart_date, idx := i, price := choice.price,
          airline := choice.airline, departure_at := choice.departure_at,
          phone := phone, username := username, fullname := fullname }) := by
  have hne : q.results ≠ [] := by
    intro h0
    rw [h0, pyIndex_nil] at hch
    exact Option.noConfusion hch
  simp [got_contact, hsel, hne, hch, hm]

/-- C6, witness: the amended statement at the concrete session. -/
theorem C6_witness :
    got_contact 5 true (some qAwaiting) "+998" none "N" =
      (some qAwaiting, .leadSent
        { origin := qAwaiting.origin, destination := qAwaiting.destination,
          depart_date := qAwaiting.depart_date, idx := 0, price := offerA1.price,
          airline := offerA1.airline, departure_at := offerA1.departure_at,
          phone := "+998", username := none, fullname := "N" }) :=
  C6_contact_emits_lead_no_reset 5 qAwaiting "+998" none "N" 0 offerA1
    (by decide) (by decide) (by decide)

/-! ## Claim C7: selecting an offer out of range.

`buy_ticket` (main.py 435-440) only rejects `idx >= len(st.results)`:
a crafted negative index slips past the guard, mutates
`st.selected_idx`, and Python's negative indexing serves an offer (or
raises IndexError below `-len`). -/

def offerP1 : NOffer := ⟨some (.num 100), "B1", "", "t1", ""⟩
def offerP2 : NOffer := ⟨some (.num 200), "B2", "", "t2", ""⟩
def offerP3 : NOffer := ⟨some (.num 300), "B3", "", "t3", ""⟩

/-- A showing-results session with a 3-item result set. -/
def qThree : QueryState := { results := [offerP1, offerP2, offerP3] }

/-- C7, counterexample: index `-1` lies outside `[0, 3)`, yet select-offer
is NOT rejected: the session's selected index is mutated to `-1` and the
last offer is served. -/
theorem C7_counterexample :
    buy_ticket (some qThree) (-1) =
      (some { qThree with selected_idx := some (-1) }, .prompt offerP3) ∧
    (-1 : Int) < 0 := by
  refine ⟨by decide, by decide⟩

/-- C7 (amended): an index at or above the result count (or an empty
result set) is rejected with not-found and no session mutation, as the
claim states; but a negative index passes the guard: the selected index
is mutated, and the offer at `len + idx` is served when `-len ≤ idx`,
an IndexError raised otherwise. -/
theorem C7_buy_ticket_bounds (q : QueryState) (idx : Int) :
    (q.results = [] ∨ (q.results.length : Int) ≤ idx →
      buy_ticket (some q) idx = (some q, .notFound)) ∧
    (idx < 0 → q.results ≠ [] →
      buy_ticket (some q) idx =
        (some { q with selected_idx := some idx },
         (pyIndex q.results idx).elim BuyOutcome.indexError BuyOutcome.prompt)) := by
  constructor
  · intro h
    simp [buy_ticket, h]
  · intro hneg hne
    have hguard : ¬ (q.results = [] ∨ (q.results.length : Int) ≤ idx) := by
      push_neg
      refine ⟨hne, ?_⟩
      have hn : (0 : Int) ≤ (q.results.length : Int) := Int.ofNat_nonneg _
      omega
    simp only [buy_ticket]
    rw [if_neg hguard]
    cases hpi : pyIndex q.results idx <;> simp [hpi]

/-- C7, witness: the amended statement's in-range rejection applied at the
3-item session and index 99, and its negative branch at index -2. -/
theorem C7_witness :
    buy_ticket (some qThree) 99 = (some qThree, .notFound) ∧
    buy_ticket (some qThree) (-2) =
      (some { qThree with selected_idx := some (-2) },
       (pyIndex qThree.results (-2)).elim BuyOutcome.indexError BuyOutcome.prompt) :=
  ⟨(C7_buy_ticket_bounds qThree 99).1 (Or.inr (by decide)),
   (C7_buy_ticket_bounds qThree (-2)).2 (by decide) (by decide)⟩

/-! ## Claim C8: entering the date-chosen handler with missing fields.

`run_search` (bot_logic.py 137-153) does guard and bail out; but
`cal_set` (main.py 367-411) has no such guard: it stores the chosen
date, issues both provider fetches with the unset route, and stores the
merged (empty) results. -/

/-- C8, counterexample: `cal_set` on a fresh session with neither origin
nor destination recorded still stores the date and issues both fetches —
partial execution where the claim requires none. -/
theorem C8_counterexample :
    (cal_set {} "2025-11-05" [] []).1.depart_date = some "2025-11-05" ∧
    (cal_set {} "2025-11-05" [] []).2 =
      [⟨none, none, "2025-11-05"⟩, ⟨none, none, "2025-11-05"⟩] ∧
    ({} : QueryState).origin = none ∧ ({} : QueryState).destination = none := by
  refine ⟨by decide, by decide, by decide, by decide⟩

/-- C8 (amended): the bot_logic date-chosen handler `run_search` does what
the claim says: with origin, tag or destination group missing it answers
the restart instruction, issues no provider fetch and leaves the session
unchanged; the main.py handler `cal_set` performs no such guard. -/
theorem C8_run_search_guard (st : BLState) (dep : String)
    (env : String → List FOffer)
    (h : (strFalsy st.origin || strFalsy st.tag || strFalsy st.dest_group) = true) :
    run_search st dep env = (st, .missingData, []) := by
  unfold run_search
  rw [if_pos h]

/-- C8, witness: the guard at a fresh session. -/
theorem C8_witness :
    run_search {} "2025-11-05" (fun _ => []) = ({}, .missingData, []) :=
  C8_run_search_guard {} "2025-11-05" (fun _ => []) (by decide)

/-! ## Claim C9: determinism of the affiliate link builder.

`build_ref_link` substitutes `(st.depart_date or date.today())` into the
template: with the session's departure date unset the link depends on
the day the handler runs, which is not among the claimed inputs. -/

/-- An offer carrying no provider link. -/
def offerNoLink : NOffer := ⟨none, "", "", "", ""⟩

/-- A session whose departure date is set. -/
def qWithDate : QueryState := { depart_date := some "2025-11-05" }

/-- C9, counterexample: identical (offer, session, template, subid)
inputs, two different current days — the built links differ, because the
date placeholder falls back to `date.today()` when the session's
departure date is unset. -/
theorem C9_counterexample :
    build_ref_link offerNoLink {} "2025-01-01" [Tok.date] "" = some "2025-01-01" ∧
    build_ref_link offerNoLink {} "2025-01-02" [Tok.date] "" = some "2025-01-02" ∧
    build_ref_link offerNoLink {} "2025-01-01" [Tok.date] "" ≠
      build_ref_link offerNoLink {} "2025-01-02" [Tok.date] "" := by
  refine ⟨by decide, by decide, by decide⟩

/-- C9 (amended): the link builder is deterministic — independent of the
current day — whenever the offer carries its own link or the session's
departure date is set (which holds on every path that populates
results); only with both absent does the link vary with today's date. -/
theorem C9_ref_link_deterministic (choice : NOffer) (st : QueryState)
    (tmpl : List Tok) (subid : String) (t1 t2 : String)
    (h : choice.link ≠ "" ∨ st.depart_date ≠ none) :
    build_ref_link choice st t1 tmpl subid =
      build_ref_link choice st t2 tmpl subid := by
  unfold build_ref_link
  by_cases hl : choice.link ≠ ""
  · rw [if_pos hl, if_pos hl]
  · rw [if_neg hl, if_neg hl]
    rcases h with h | h
    · exact absurd h hl
    · obtain ⟨d, hd⟩ := Option.ne_none_iff_exists'.mp h
      rw [hd]
      simp only [Option.getD_some]

/-- C9, witness: determinism at a concrete offer and dated session across
two different days. -/
theorem C9_witness :
    build_ref_link offerNoLink qWithDate "2025-01-01" [Tok.date] "s" =
      build_ref_link offerNoLink qWithDate "2025-01-02" [Tok.date] "s" :=
  C9_ref_link_deterministic offerNoLink qWithDate [Tok.date] "s"
    "2025-01-01" "2025-01-02" (Or.inr (by decide))

/-! ## Claim C10: a present-but-zero price. -/

/-- C10: a zero price is Python-falsy, so the alias chain
`item.get("price") or item.get("value")` treats it exactly like an
absent price (falling through to `value`, or to absent); and in the
day-flex fetcher's ranking `z["price"] or 9e12` gives a zero price the
sentinel key, so the ranked list — ascending in that key — places a
zero-priced offer after every offer with a nonzero price below the
sentinel. -/
theorem C10_zero_price (item : RawItem) (results : List FOffer)
    (h : item.price = some (.num 0)) :
    normalize item = normalize { item with price := none } ∧
    fkey (some 0) = fkey none ∧
    List.Pairwise (fun a b => fkey a.price ≤ fkey b.price)
      (rank_cheapest results) ∧
    List.Pairwise (fun a b => a.price = some 0 → ∀ n : Int,
      b.price = some n → n ≠ 0 → 9 * 10 ^ 12 ≤ n)
      (rank_cheapest results) := by
  have hsort : List.Pairwise (fun a b => fkey a.price ≤ fkey b.price)
      (rank_cheapest results) := by
    have hs := sortKey_sorted (fun z : FOffer => fkey z.price) results
    have hsub : List.Sublist (rank_cheapest results)
        (sortKey (fun z : FOffer => fkey z.price) results) :=
      (List.take_sublist _ _).trans (dedupBy_sublist fdkey [] _)
    exact List.Pairwise.sublist hsub hs
  refine ⟨?_, rfl, hsort, ?_⟩
  · simp [normalize, h, jor, jfalsy, JVal.falsy]
  · refine hsort.imp ?_
    intro a b hab ha n hb hn0
    rw [ha, hb] at hab
    simpa [fkey, hn0] using hab

/-- C10, witness: the zero-price normalization at a concrete item whose
`value` field is a digit string. -/
theorem C10_witness :
    normalize
        { price := some (.num 0), value := some (.str "7"),
          airline := some "W", departure_at := some "t" } =
      normalize
        { price := none, value := some (.str "7"),
          airline := some "W", departure_at := some "t" } :=
  (C10_zero_price
    { price := some (.num 0), value := some (.str "7"),
      airline := some "W", departure_at := some "t" } [] rfl).1

end Avia
